import Mathlib

/-!
Verification of the core of the `datacloud-mcp-query` client:
the Connect-API SQL query executor (`connect_api_dc_sql.py`) and the
OAuth credential manager (`oauth.py`).

The embedding models JSON documents as an inductive `JVal` (integers only —
the protocol fields involved are integral), a best-effort JSON parser
standing in for Python's `json.loads`, the error-body parsing of
`_handle_error_response`, the submit/poll/paginate state machine of
`run_query` driven by scripted HTTP responses, and the credential
refresh logic of `OAuthSession.ensure_access` / `_run_oauth_flow`.
-/

namespace DataCloud

/-- JSON values as produced by `json.loads`.  Numbers are modelled as
integers: every numeric protocol field involved (`rowCount`,
`returnedRows`) is integral. -/
inductive JVal where
  | null
  | bool (b : Bool)
  | num (n : Int)
  | str (s : String)
  | arr (elems : List JVal)
  | obj (fields : List (String × JVal))

/-- Lookup in a JSON object, last binding wins (mirrors Python dict
construction where a duplicate key overwrites the earlier one). -/
def objLookup : List (String × JVal) → String → Option JVal
  | [], _ => none
  | (k, v) :: rest, key =>
    match objLookup rest key with
    | some r => some r
    | none => if k = key then some v else none

/-- Model of Python `d.get(key)` on a parsed JSON value: field lookup on an
object, `none` otherwise.  (On a non-object Python would raise
`AttributeError`; the protocol fields read through this function are
objects whenever present, and all theorem instances use objects.) -/
def objGet : JVal → String → Option JVal
  | JVal.obj fields, key => objLookup fields key
  | _, _ => none

/-- Python truthiness of a decoded JSON value. -/
def truthy : JVal → Bool
  | JVal.null => false
  | JVal.bool b => b
  | JVal.num n => n != 0
  | JVal.str s => !s.isEmpty
  | JVal.arr l => !l.isEmpty
  | JVal.obj l => !l.isEmpty

/-- Python truthiness of a value that may be `None`. -/
def truthyOpt : Option JVal → Bool
  | none => false
  | some v => truthy v

/-- Python `a or b` over possibly-`None` JSON values. -/
def pyOr (a b : Option JVal) : Option JVal :=
  if truthyOpt a then a else b

/-- The left brace character (ASCII 123). -/
def lbrace : Char := Char.ofNat 123

/-- The right brace character (ASCII 125). -/
def rbrace : Char := Char.ofNat 125

/-- Skip JSON whitespace (the exact set accepted by Python's `json`). -/
def skipWs : List Char → List Char
  | [] => []
  | c :: rest =>
    if c = ' ' ∨ c = '\t' ∨ c = '\n' ∨ c = '\r' then skipWs rest
    else c :: rest

/-- Translation of a JSON string escape character (the character after a
backslash).  `\uXXXX` escapes are not modelled; none of the protocol
bodies involved use them. -/
def unescapeChar (e : Char) : Option Char :=
  if e = '"' then some '"'
  else if e = '\\' then some '\\'
  else if e = '/' then some '/'
  else if e = 'n' then some '\n'
  else if e = 't' then some '\t'
  else if e = 'r' then some '\r'
  else if e = 'b' then some (Char.ofNat 8)
  else if e = 'f' then some (Char.ofNat 12)
  else none

/-- Parse the body of a JSON string literal (input starts after the opening
quote); returns the decoded content and the input after the closing
quote. -/
def parseStrAux : List Char → Option (List Char × List Char)
  | [] => none
  | c :: rest =>
    if c = '"' then some ([], rest)
    else if c = '\\' then
      match rest with
      | [] => none
      | e :: rest2 =>
        match unescapeChar e with
        | some u =>
          match parseStrAux rest2 with
          | some (content, r) => some (u :: content, r)
          | none => none
        | none => none
    else
      match parseStrAux rest with
      | some (content, r) => some (c :: content, r)
      | none => none

/-- Digits to a natural number, most significant first. -/
def digitsToNat (ds : List Char) : Nat :=
  ds.foldl (fun acc c => 10 * acc + (c.toNat - 48)) 0

/-- Parse an integer JSON number (optional minus sign, a nonempty digit
run).  Fractions and exponents are not modelled: a body using them is
treated as unparseable, which only widens the raw-text fallback path. -/
def parseNumber (input : List Char) : Option (Int × List Char) :=
  match input with
  | '-' :: rest =>
    let p := rest.span Char.isDigit
    if p.1.isEmpty then none else some (-(digitsToNat p.1 : Int), p.2)
  | _ =>
    let p := input.span Char.isDigit
    if p.1.isEmpty then none else some ((digitsToNat p.1 : Int), p.2)

mutual

/-- Parse one JSON value.  The fuel bounds the bracket-nesting depth; each
mutual call decreases it, and the top-level entry point supplies more fuel
than any input of that length can consume. -/
def parseVal : Nat → List Char → Option (JVal × List Char)
  | 0, _ => none
  | n + 1, input =>
    match skipWs input with
    | [] => none
    | c :: rest =>
      if c = lbrace then
        match parseObjMems n (skipWs rest) with
        | some (fs, rest2) => some (JVal.obj fs, rest2)
        | none => none
      else if c = '[' then
        match parseArrElems n (skipWs rest) with
        | some (es, rest2) => some (JVal.arr es, rest2)
        | none => none
      else if c = '"' then
        match parseStrAux rest with
        | some (content, rest2) => some (JVal.str (String.mk content), rest2)
        | none => none
      else if c = 't' then
        match rest with
        | 'r' :: 'u' :: 'e' :: rest2 => some (JVal.bool true, rest2)
        | _ => none
      else if c = 'f' then
        match rest with
        | 'a' :: 'l' :: 's' :: 'e' :: rest2 => some (JVal.bool false, rest2)
        | _ => none
      else if c = 'n' then
        match rest with
        | 'u' :: 'l' :: 'l' :: rest2 => some (JVal.null, rest2)
        | _ => none
      else
        match parseNumber (c :: rest) with
        | some (m, rest2) => some (JVal.num m, rest2)
        | none => none

/-- Parse array elements, positioned just after `[` (whitespace skipped). -/
def parseArrElems : Nat → List Char → Option (List JVal × List Char)
  | 0, _ => none
  | n + 1, input =>
    match input with
    | ']' :: rest => some ([], rest)
    | _ => parseArrRest n input

/-- Parse a nonempty comma-separated run of array elements up to `]`. -/
def parseArrRest : Nat → List Char → Option (List JVal × List Char)
  | 0, _ => none
  | n + 1, input =>
    match parseVal n input with
    | none => none
    | some (v, rest) =>
      match skipWs rest with
      | ',' :: rest2 =>
        match parseArrRest n (skipWs rest2) with
        | some (vs, rest3) => some (v :: vs, rest3)
        | none => none
      | ']' :: rest2 => some ([v], rest2)
      | _ => none

/-- Parse object members, positioned just after the opening brace
(whitespace skipped). -/
def parseObjMems : Nat → List Char → Option (List (String × JVal) × List Char)
  | 0, _ => none
  | n + 1, input =>
    match input with
    | [] => none
    | c :: rest =>
      if c = rbrace then some ([], rest)
      else parseObjRest n (c :: rest)

/-- Parse a nonempty comma-separated run of object members up to the
closing brace. -/
def parseObjRest : Nat → List Char → Option (List (String × JVal) × List Char)
  | 0, _ => none
  | n + 1, input =>
    match input with
    | [] => none
    | c :: rest =>
      if c = '"' then
        match parseStrAux rest with
        | none => none
        | some (kcs, rest2) =>
          match skipWs rest2 with
          | ':' :: rest3 =>
            match parseVal n (skipWs rest3) with
            | none => none
            | some (v, rest4) =>
              match skipWs rest4 with
              | [] => none
              | c2 :: rest5 =>
                if c2 = ',' then
                  match parseObjRest n (skipWs rest5) with
                  | some (fs, rest6) => some ((String.mk kcs, v) :: fs, rest6)
                  | none => none
                else if c2 = rbrace then some ([(String.mk kcs, v)], rest5)
                else none
          | _ => none
      else none

end

/-- Model of `json.loads`: parse a whole document, requiring the entire
input (up to trailing whitespace) to be consumed.  The fuel `3 * length + 5`
exceeds the nesting depth any input of that length can reach. -/
def parseJson (s : String) : Option JVal :=
  match parseVal (3 * s.data.length + 5) s.data with
  | some (v, rest) => if (skipWs rest).isEmpty then some v else none
  | none => none

/-- Human-readable error message extracted from a non-2xx response body by
`_handle_error_response` (`connect_api_dc_sql.py` lines 17-32): if the body
is a JSON list whose first element is an object carrying a nonempty string
`message` field that itself decodes to a truthy JSON value, that nested
JSON string is surfaced; every parse failure along the way is swallowed and
the raw body text is used.  The function is total: the parsing step never
raises. -/
def computeMessage (text : String) : String :=
  match parseJson text with
  | none => text
  | some payload =>
    match payload with
    | JVal.arr (first :: _) =>
      match first with
      | JVal.obj fields =>
        match (objLookup fields "message").getD (JVal.str "") with
        | JVal.str s =>
          if s.isEmpty then text
          else
            match parseJson s with
            | none => text
            | some details => if truthy details then s else text
        | _ => text
      | _ => text
    | _ => text

/-- The failures `run_query` can raise, named after the spec's taxonomy.
`queryFailure` is the `raise Exception(status, reason, message)` of
`_handle_error_response`; `missingQueryId` is the
`Exception(500, "MissingQueryId", ...)` raise; `missingRowCount` is the
uncaught `TypeError` from `int(None)` when `rowCount` is absent;
`emptyPage` is the `Exception(500, "MissingRows", ...)` raise;
`badReturnedRows` is the uncaught conversion error when a present
`returnedRows` field is not a number; `jsonDecodeError` is the uncaught
error from `response.json()` on an unparseable success body. -/
inductive Failure where
  | queryFailure (status : Nat) (reason : String) (message : String)
  | missingQueryId
  | missingRowCount
  | emptyPage
  | badReturnedRows
  | jsonDecodeError

/-- The spec's `ProtocolFailure` class: a required field (query id, row
count) absent from a response body. -/
def Failure.isProtocolFailure : Failure → Bool
  | Failure.missingQueryId => true
  | Failure.missingRowCount => true
  | _ => false

/-- An HTTP response as observed by the client.  `text` is the raw body,
read only by the error handler (which runs exactly when `status ≥ 300`);
`body` is the outcome of `response.json()`, consumed only on the success
path (`none` models a body that `json.loads` rejects).  The two views are
consumed on disjoint paths, so carrying both loses no fidelity. -/
structure HttpResponse where
  status : Nat
  reason : String
  text : String
  body : Option JVal

/-- `_handle_error_response`: raise a `QueryFailure` carrying the status,
reason phrase and best-effort-parsed message whenever `status ≥ 300`. -/
def handleErrorResponse (r : HttpResponse) : Except Failure Unit :=
  if 300 ≤ r.status then
    Except.error (Failure.queryFailure r.status r.reason (computeMessage r.text))
  else Except.ok ()

/-- `submit_payload.get("data", []) or []`, used as a row list.  A truthy
non-list `data` field (on which Python would crash further down) is outside
the modelled input space and is mapped to the empty list. -/
def getRowsList (payload : JVal) : List JVal :=
  match objGet payload "data" with
  | some (JVal.arr l) => l
  | _ => []

/-- `submit_payload.get("status", {})`. -/
def submitStatusObj (payload : JVal) : JVal :=
  (objGet payload "status").getD (JVal.obj [])

/-- `status_obj.get("queryId") or submit_payload.get("queryId")`. -/
def submitQueryId (payload : JVal) : Option JVal :=
  pyOr (objGet (submitStatusObj payload) "queryId") (objGet payload "queryId")

/-- `status_obj.get("completionStatus")`. -/
def submitCompletion (payload : JVal) : Option JVal :=
  objGet (submitStatusObj payload) "completionStatus"

/-- `submit_payload.get("metadata", [])`. -/
def submitMetadata (payload : JVal) : JVal :=
  (objGet payload "metadata").getD (JVal.arr [])

/-- Python `int(x)` on an optional decoded JSON value: `none` when the
conversion raises (`TypeError` on `None` / lists / objects / null,
`ValueError` on a non-numeric string). -/
def pyIntOpt : Option JVal → Option Int
  | some (JVal.num n) => some n
  | some (JVal.bool b) => some (if b then 1 else 0)
  | some (JVal.str s) =>
    match parseNumber s.data with
    | some (n, rest) => if rest.isEmpty then some n else none
    | _ => none
  | _ => none

/-- `completion in ["Finished", "ResultsProduced"]`. -/
def isTerminal : Option JVal → Bool
  | some (JVal.str s) => s == "Finished" || s == "ResultsProduced"
  | _ => false

/-- Result of one of `run_query`'s request loops: a normal value, a raised
failure, or `hung` — the loop asked for one more response than the finite
script provides (modelling an execution that keeps issuing requests). -/
inductive LoopRes (α : Type) where
  | done (a : α)
  | failed (f : Failure)
  | hung

/-- The completion-polling loop (`connect_api_dc_sql.py` lines 92-112):
while the completion status is not terminal, consume the next scripted
poll response; surface any non-2xx via the error handler, refresh the
completion status and `int(rowCount)`.  Returns the final row count and
the number of poll calls made. -/
def pollLoop : List HttpResponse → Option JVal → Int → LoopRes (Int × Nat)
  | polls, completion, total =>
    if isTerminal completion then LoopRes.done (total, 0)
    else
      match polls with
      | [] => LoopRes.hung
      | p :: rest =>
        match handleErrorResponse p with
        | Except.error f => LoopRes.failed f
        | Except.ok _ =>
          match p.body with
          | none => LoopRes.failed Failure.jsonDecodeError
          | some payload =>
            match pyIntOpt (objGet payload "rowCount") with
            | none => LoopRes.failed Failure.missingRowCount
            | some t2 =>
              match pollLoop rest (objGet payload "completionStatus") t2 with
              | LoopRes.done (t, n) => LoopRes.done (t, n + 1)
              | other => other

/-- The pagination loop (`connect_api_dc_sql.py` lines 115-144): while
fewer rows than `total` have accumulated, consume the next scripted rows
response; surface any non-2xx; read the chunk's `data` list and
`int(chunk.get("returnedRows", len(chunk_rows)))`; fail on a zero
`returnedRows`; otherwise extend the accumulator.  Returns the final row
list and the number of rows calls made. -/
def fetchLoop : List HttpResponse → Int → List JVal → LoopRes (List JVal × Nat)
  | pages, total, rows =>
    if (rows.length : Int) < total then
      match pages with
      | [] => LoopRes.hung
      | p :: rest =>
        match handleErrorResponse p with
        | Except.error f => LoopRes.failed f
        | Except.ok _ =>
          match p.body with
          | none => LoopRes.failed Failure.jsonDecodeError
          | some chunk =>
            let chunkRows := getRowsList chunk
            let rr :=
              match objGet chunk "returnedRows" with
              | none => some (chunkRows.length : Int)
              | some v => pyIntOpt (some v)
            match rr with
            | none => LoopRes.failed Failure.badReturnedRows
            | some returnedRows =>
              if returnedRows = 0 then LoopRes.failed Failure.emptyPage
              else
                match fetchLoop rest total (rows ++ chunkRows) with
                | LoopRes.done (r, n) => LoopRes.done (r, n + 1)
                | other => other
    else LoopRes.done (rows, 0)

/-- The dictionary `run_query` returns: the aggregated rows and the column
metadata captured at submission. -/
structure QueryResult where
  data : List JVal
  metadata : JVal

/-- Observable outcome of one `run_query` invocation.  `ok` additionally
records the final reported row count (the protocol's authoritative total
at or after completion) and how many poll and rows requests were issued;
`outOfScript` means the run needed more responses than the script holds. -/
inductive Outcome where
  | ok (res : QueryResult) (total : Int) (pollCalls : Nat) (pageCalls : Nat)
  | fail (f : Failure)
  | outOfScript

/-- `run_query` (`connect_api_dc_sql.py` lines 42-150) over scripted
responses: check the submission response through the error handler, decode
it, require a truthy query id, capture inline rows and metadata, read
`int(status_obj.get("rowCount"))`, poll to completion, then paginate until
the accumulated row count reaches the total. -/
def run_query (submit : HttpResponse) (polls pages : List HttpResponse) : Outcome :=
  match handleErrorResponse submit with
  | Except.error f => Outcome.fail f
  | Except.ok _ =>
    match submit.body with
    | none => Outcome.fail Failure.jsonDecodeError
    | some payload =>
      if ¬ truthyOpt (submitQueryId payload) then Outcome.fail Failure.missingQueryId
      else
        let rows := getRowsList payload
        let metadata := submitMetadata payload
        match pyIntOpt (objGet (submitStatusObj payload) "rowCount") with
        | none => Outcome.fail Failure.missingRowCount
        | some total0 =>
          match pollLoop polls (submitCompletion payload) total0 with
          | LoopRes.hung => Outcome.outOfScript
          | LoopRes.failed f => Outcome.fail f
          | LoopRes.done (total, nPolls) =>
            match fetchLoop pages total rows with
            | LoopRes.hung => Outcome.outOfScript
            | LoopRes.failed f => Outcome.fail f
            | LoopRes.done (finalRows, nPages) =>
              Outcome.ok (QueryResult.mk finalRows metadata) total nPolls nPages

/-- The mutable credential fields of `OAuthSession` (`oauth.py` lines
99-103).  Time is modelled in seconds. -/
structure OAuthState where
  token : Option String
  exp : Option Int
  instance_url : Option String

/-- The fields of the token-endpoint response that `ensure_access`
consumes (`access_token`, `instance_url`). -/
structure AuthInfo where
  access_token : String
  instance_url : String

/-- `timedelta(minutes=110)` in seconds. -/
def tokenLeadTime : Int := 110 * 60

/-- `OAuthSession.ensure_access` (`oauth.py` lines 181-193).  `now` is the
clock reading at the expiry check and `flowTime` the reading just after a
(potential) authorization flow completes — the source calls
`datetime.now()` at both points.  `flow` is the token-endpoint response the
authorization flow would return if invoked.  Returns the new state, the
returned token, and the number of authorization flows performed. -/
def ensure_access (st : OAuthState) (now flowTime : Int) (flow : AuthInfo) :
    OAuthState × String × Nat :=
  let st1 :=
    match st.exp with
    | some e => if now > e then OAuthState.mk none none st.instance_url else st
    | none => st
  match st1.token with
  | some t => (st1, t, 0)
  | none =>
    (OAuthState.mk (some flow.access_token) (some (flowTime + tokenLeadTime))
      (some flow.instance_url), flow.access_token, 1)

/-- `OAuthSession.get_token`. -/
def get_token (st : OAuthState) (now flowTime : Int) (flow : AuthInfo) :
    OAuthState × String × Nat :=
  ensure_access st now flowTime flow

/-- `OAuthSession.get_instance_url`: run `ensure_access`, then read the
stored instance URL. -/
def get_instance_url (st : OAuthState) (now flowTime : Int) (flow : AuthInfo) :
    OAuthState × Option String × Nat :=
  match ensure_access st now flowTime flow with
  | (st2, _, n) => (st2, st2.instance_url, n)

/-- Static configuration used by the code-exchange step of
`_run_oauth_flow`. -/
structure FlowConfig where
  client_id : String
  client_secret : String
  redirect_uri : String

/-- The form body of the POST to the token endpoint (`oauth.py` lines
158-169). -/
structure TokenRequest where
  grant_type : String
  code : String
  client_id : String
  client_secret : String
  redirect_uri : String
  code_verifier : String

/-- First value captured for a query-string key (`parse_qs` stores values
in first-to-last order and the source reads index 0; `parse_qs` never
produces a key with an empty value list). -/
def qsLookup (args : List (String × String)) (k : String) : Option String :=
  (args.find? (fun p => p.1 = k)).map Prod.snd

/-- The `AuthFailure` message built when the redirect carried no `code`
(`oauth.py` lines 147-153). -/
def authFailureMessage (args : List (String × String)) : String :=
  let base := "OAuth authentication failed - no authorization code received"
  match qsLookup args "error" with
  | none => base
  | some e =>
    match qsLookup args "error_description" with
    | none => base ++ ". Error: " ++ e
    | some d => base ++ ". Error: " ++ e ++ " - " ++ d

/-- The decision step of `_run_oauth_flow` after the callback listener has
captured the redirect's query parameters (`oauth.py` lines 145-169): fail
with `AuthFailure` when `code` is absent, otherwise issue the token
request with the authorization-code grant and the PKCE verifier. -/
def oauthCodeExchange (cfg : FlowConfig) (args : List (String × String))
    (code_verifier : String) : Except String TokenRequest :=
  match qsLookup args "code" with
  | none => Except.error (authFailureMessage args)
  | some code =>
    Except.ok (TokenRequest.mk "authorization_code" code cfg.client_id
      cfg.client_secret cfg.redirect_uri code_verifier)

/-- Substring containment (Python's `"x" in s`). -/
def strContains (hay sub : String) : Prop :=
  sub.data <:+: hay.data

/-- A string whose characters survive a JSON string literal unchanged
(no quote, no backslash). -/
def jsonSafe (s : String) : Prop :=
  ∀ c ∈ s.data, c ≠ '"' ∧ c ≠ '\\'

/-- The error-body shape of the spec's round-trip property:
`[{"message": "{\"primaryMessage\":\"X\",\"customerHint\":\"Y\"}"}]`. -/
def shapedBody (X Y : String) : String :=
  "[\x7b\"message\": \"\x7b\\\"primaryMessage\\\":\\\"" ++ X ++
    "\\\",\\\"customerHint\\\":\\\"" ++ Y ++ "\\\"\x7d\"\x7d]"

/-- The nested JSON string carried by `shapedBody`'s `message` field, after
unescaping: `{"primaryMessage":"X","customerHint":"Y"}`. -/
def innerMessage (X Y : String) : String :=
  "\x7b\"primaryMessage\":\"" ++ X ++ "\",\"customerHint\":\"" ++ Y ++ "\"\x7d"

/-- Concatenation, in request order, of the row chunks carried by the
first `k` scripted rows responses. -/
def chunksTaken (pages : List HttpResponse) (k : Nat) : List JVal :=
  (pages.take k).foldr
    (fun p acc =>
      (match p.body with
       | some chunk => getRowsList chunk
       | none => []) ++ acc) []

/-- The scripted rows responses never return more rows than are still
outstanding, mirroring the provider contract (`rowLimit`/`offset`
pagination of a result of `total` rows).  Follows the recursion structure
of `fetchLoop`. -/
def NoOvershoot : List HttpResponse → Int → Int → Prop
  | [], _, _ => True
  | p :: rest, total, accLen =>
    if accLen < total then
      match p.body with
      | some chunk =>
        accLen + ((getRowsList chunk).length : Int) ≤ total ∧
          NoOvershoot rest total (accLen + ((getRowsList chunk).length : Int))
      | none => True
    else True

/-- A rows response whose `data` list is empty while its `returnedRows`
field nonetheless reports 1: the pagination loop makes no progress on it
and never terminates. -/
def stuckPage : HttpResponse :=
  HttpResponse.mk 200 "OK" "" (some (JVal.obj [("returnedRows", JVal.num 1)]))

/-- Submission response of the overshoot run: completed at submission with
a reported row count of 1 and no inline rows. -/
def overshootSubmit : HttpResponse :=
  HttpResponse.mk 200 "OK" ""
    (some (JVal.obj [("status", JVal.obj [("queryId", JVal.str "q1"),
      ("completionStatus", JVal.str "Finished"), ("rowCount", JVal.num 1)])]))

/-- Rows response of the overshoot run: delivers two rows although only
one is outstanding. -/
def overshootPage : HttpResponse :=
  HttpResponse.mk 200 "OK" ""
    (some (JVal.obj [("data", JVal.arr [JVal.null, JVal.null]),
      ("returnedRows", JVal.num 2)]))

/-- Submission response of the conforming two-row run: completed at
submission, total 2, one inline row. -/
def twoRowSubmit : HttpResponse :=
  HttpResponse.mk 200 "OK" ""
    (some (JVal.obj [("status", JVal.obj [("queryId", JVal.str "q2"),
      ("completionStatus", JVal.str "Finished"), ("rowCount", JVal.num 2)]),
      ("data", JVal.arr [JVal.num 10])]))

/-- Rows response of the conforming two-row run: the one outstanding row. -/
def twoRowPage : HttpResponse :=
  HttpResponse.mk 200 "OK" ""
    (some (JVal.obj [("data", JVal.arr [JVal.num 20]),
      ("returnedRows", JVal.num 1)]))

/-- Submission response that already reports `Finished` with both inline
rows present (row count 2), used to exercise the skip-both-loops path. -/
def inlineSubmit : HttpResponse :=
  HttpResponse.mk 200 "OK" ""
    (some (JVal.obj [
      ("status", JVal.obj [("queryId", JVal.str "q3"),
        ("completionStatus", JVal.str "ResultsProduced"), ("rowCount", JVal.num 2)]),
      ("data", JVal.arr [JVal.num 1, JVal.num 2]),
      ("metadata", JVal.arr [JVal.str "col"])]))

/-- Submission response reporting a row count of zero, completed at
submission. -/
def zeroRowSubmit : HttpResponse :=
  HttpResponse.mk 200 "OK" ""
    (some (JVal.obj [("status", JVal.obj [("queryId", JVal.str "q4"),
      ("completionStatus", JVal.str "Finished"), ("rowCount", JVal.num 0)])]))

/-- JSON string-literal escaping of quote and backslash, the inverse
direction of `parseStrAux`'s unescaping; used to relate a raw error body
to the nested message it carries. -/
def escapeChars : List Char → List Char
  | [] => []
  | c :: rest =>
    if c = '"' then '\\' :: '"' :: escapeChars rest
    else if c = '\\' then '\\' :: '\\' :: escapeChars rest
    else c :: escapeChars rest

/- ------------------------------------------------------------------ -/
/- Helper lemmas about the JSON parser.                                -/
/- ------------------------------------------------------------------ -/

theorem parseStrAux_close (rest : List Char) :
    parseStrAux ('"' :: rest) = some ([], rest) := by
  rw [parseStrAux.eq_def]
  try dsimp only
  rw [if_pos rfl]

theorem parseStrAux_safe_append (cs : List Char)
    (h : ∀ c ∈ cs, c ≠ '"' ∧ c ≠ '\\') (rest : List Char) :
    parseStrAux (cs ++ rest) =
      (parseStrAux rest).map (fun p => (cs ++ p.1, p.2)) := by
  induction cs with
  | nil =>
    simp
  | cons c cs ih =>
    obtain ⟨h1, h2⟩ := h c (by simp)
    rw [List.cons_append, parseStrAux.eq_def]
    try dsimp only
    rw [if_neg h1, if_neg h2]
    rw [ih (fun d hd => h d (by simp [hd]))]
    cases parseStrAux rest with
    | none => rfl
    | some p => rfl

theorem parseStrAux_escaped_append (cs : List Char) (rest : List Char) :
    parseStrAux (escapeChars cs ++ rest) =
      (parseStrAux rest).map (fun p => (cs ++ p.1, p.2)) := by
  induction cs with
  | nil =>
    simp [escapeChars]
  | cons c cs ih =>
    by_cases h1 : c = '"'
    · subst h1
      rw [show escapeChars ('"' :: cs) = '\\' :: '"' :: escapeChars cs from rfl]
      rw [List.cons_append, List.cons_append, parseStrAux.eq_def]
      try dsimp only
      rw [if_neg (by decide), if_pos rfl]
      try dsimp only
      rw [show unescapeChar '"' = some '"' from rfl]
      try dsimp only
      rw [ih]
      cases parseStrAux rest with
      | none => rfl
      | some p => rfl
    · by_cases h2 : c = '\\'
      · subst h2
        rw [show escapeChars ('\\' :: cs) = '\\' :: '\\' :: escapeChars cs from rfl]
        rw [List.cons_append, List.cons_append, parseStrAux.eq_def]
        try dsimp only
        rw [if_neg (by decide), if_pos rfl]
        try dsimp only
        rw [show unescapeChar '\\' = some '\\' from rfl]
        try dsimp only
        rw [ih]
        cases parseStrAux rest with
        | none => rfl
        | some p => rfl
      · rw [show escapeChars (c :: cs) = c :: escapeChars cs from by
          rw [escapeChars.eq_def]
          try dsimp only
          rw [if_neg h1, if_neg h2]]
        rw [List.cons_append, parseStrAux.eq_def]
        try dsimp only
        rw [if_neg h1, if_neg h2]
        rw [ih]
        cases parseStrAux rest with
        | none => rfl
        | some p => rfl

theorem parseStrAux_safe_closed (cs : List Char)
    (h : ∀ c ∈ cs, c ≠ '"' ∧ c ≠ '\\') (rest : List Char) :
    parseStrAux (cs ++ '"' :: rest) = some (cs, rest) := by
  rw [parseStrAux_safe_append cs h, parseStrAux_close]
  simp

theorem parseStrAux_escaped_closed (cs : List Char) (rest : List Char) :
    parseStrAux (escapeChars cs ++ '"' :: rest) = some (cs, rest) := by
  rw [parseStrAux_escaped_append cs, parseStrAux_close]
  simp

theorem escapeChars_append (a b : List Char) :
    escapeChars (a ++ b) = escapeChars a ++ escapeChars b := by
  induction a with
  | nil => simp [escapeChars]
  | cons c cs ih =>
    rw [List.cons_append, escapeChars.eq_def, escapeChars.eq_def]
    by_cases h1 : c = '"'
    · simp only [h1, if_pos]
      rw [ih]
      rfl
    · by_cases h2 : c = '\\'
      · simp only [h1, h2, if_neg, if_pos, ite_false]
        rw [ih]
        rfl
      · simp only [h1, h2, if_neg, ite_false]
        rw [ih]
        rfl

theorem escapeChars_safe (cs : List Char)
    (h : ∀ c ∈ cs, c ≠ '"' ∧ c ≠ '\\') :
    escapeChars cs = cs := by
  induction cs with
  | nil => rfl
  | cons c cs ih =>
    obtain ⟨h1, h2⟩ := h c (by simp)
    rw [escapeChars.eq_def]
    try dsimp only
    rw [if_neg h1, if_neg h2,
      ih (fun d hd => h d (by simp [hd]))]

theorem skipWs_quote (r : List Char) : skipWs ('"' :: r) = '"' :: r := rfl

theorem skipWs_colon (r : List Char) : skipWs (':' :: r) = ':' :: r := rfl

theorem skipWs_space (r : List Char) : skipWs (' ' :: r) = skipWs r := rfl

theorem skipWs_lbrace (r : List Char) : skipWs (lbrace :: r) = lbrace :: r := rfl

theorem skipWs_rbrace (r : List Char) : skipWs (rbrace :: r) = rbrace :: r := rfl

theorem skipWs_lbracket (r : List Char) : skipWs ('[' :: r) = '[' :: r := rfl

theorem skipWs_rbracket (r : List Char) : skipWs (']' :: r) = ']' :: r := rfl

theorem skipWs_comma (r : List Char) : skipWs (',' :: r) = ',' :: r := rfl

theorem parseVal_quote (n : Nat) (rest : List Char) :
    parseVal (n + 1) ('"' :: rest) =
      (match parseStrAux rest with
       | some (content, rest2) => some (JVal.str (String.mk content), rest2)
       | none => none) := by
  rw [parseVal.eq_def]
  try dsimp only
  rw [skipWs_quote]
  try dsimp only
  rw [if_neg (by decide), if_neg (by decide), if_pos rfl]

theorem parseVal_lbrace (n : Nat) (rest : List Char) :
    parseVal (n + 1) (lbrace :: rest) =
      (match parseObjMems n (skipWs rest) with
       | some (fs, rest2) => some (JVal.obj fs, rest2)
       | none => none) := by
  rw [parseVal.eq_def]
  try dsimp only
  rw [skipWs_lbrace]
  try dsimp only
  rw [if_pos rfl]

theorem parseVal_lbracket (n : Nat) (rest : List Char) :
    parseVal (n + 1) ('[' :: rest) =
      (match parseArrElems n (skipWs rest) with
       | some (es, rest2) => some (JVal.arr es, rest2)
       | none => none) := by
  rw [parseVal.eq_def]
  try dsimp only
  rw [skipWs_lbracket]
  try dsimp only
  rw [if_neg (by decide), if_pos rfl]

theorem parseObjMems_quote (n : Nat) (rest : List Char) :
    parseObjMems (n + 1) ('"' :: rest) = parseObjRest n ('"' :: rest) := by
  rw [parseObjMems.eq_def]
  try dsimp only
  rw [if_neg (by decide)]

theorem parseArrElems_lbrace (n : Nat) (rest : List Char) :
    parseArrElems (n + 1) (lbrace :: rest) = parseArrRest n (lbrace :: rest) := by
  rw [parseArrElems.eq_def]
  rfl

theorem parseArrRest_step (n : Nat) (input : List Char) :
    parseArrRest (n + 1) input =
      (match parseVal n input with
       | none => none
       | some (v, rest) =>
         match skipWs rest with
         | ',' :: rest2 =>
           (match parseArrRest n (skipWs rest2) with
            | some (vs, rest3) => some (v :: vs, rest3)
            | none => none)
         | ']' :: rest2 => some ([v], rest2)
         | _ => none) := by
  rw [parseArrRest.eq_def]

/-- One complete JSON object member `"key": <value>` (safe key) as seen by
`parseObjRest`. -/
theorem parseObjRest_member (n : Nat) (key : List Char)
    (hkey : ∀ c ∈ key, c ≠ '"' ∧ c ≠ '\\') (rest : List Char) :
    parseObjRest (n + 1) ('"' :: (key ++ '"' :: ':' :: rest)) =
      (match parseVal n (skipWs rest) with
       | none => none
       | some (v, rest4) =>
         match skipWs rest4 with
         | [] => none
         | c2 :: rest5 =>
           if c2 = ',' then
             match parseObjRest n (skipWs rest5) with
             | some (fs, rest6) => some ((String.mk key, v) :: fs, rest6)
             | none => none
           else if c2 = rbrace then some ([(String.mk key, v)], rest5)
           else none) := by
  rw [parseObjRest.eq_def]
  try dsimp only
  rw [if_pos rfl]
  rw [parseStrAux_safe_closed key hkey]
  try dsimp only
  rw [skipWs_colon]
  rfl

theorem inner_decomp (X Y : String) :
    (innerMessage X Y).data =
      lbrace :: '"' :: ("primaryMessage".data ++ '"' :: ':' :: '"' ::
        (X.data ++ '"' :: ',' :: '"' :: ("customerHint".data ++ '"' :: ':' :: '"' ::
          (Y.data ++ '"' :: rbrace :: [])))) := by
  show (("\x7b\"primaryMessage\":\"" ++ X ++ "\",\"customerHint\":\"" ++ Y ++
    "\"\x7d") : String).data = _
  rw [String.data_append, String.data_append, String.data_append, String.data_append]
  rw [show ("\x7b\"primaryMessage\":\"" : String).data =
    lbrace :: '"' :: ("primaryMessage".data ++ ['"', ':', '"']) from by decide]
  rw [show ("\",\"customerHint\":\"" : String).data =
    '"' :: ',' :: '"' :: ("customerHint".data ++ ['"', ':', '"']) from by decide]
  rw [show ("\"\x7d" : String).data = ['"', rbrace] from by decide]
  simp [List.append_assoc]

/-- Parsing the nested message document `{"primaryMessage":"X","customerHint":"Y"}`
for strings `X`, `Y` free of quote and backslash. -/
theorem parse_inner (X Y : String) (hX : jsonSafe X) (hY : jsonSafe Y) (b : Nat) :
    parseVal (b + 5) (innerMessage X Y).data =
      some (JVal.obj [("primaryMessage", JVal.str X), ("customerHint", JVal.str Y)],
        []) := by
  have hXc : ∀ r : List Char, parseStrAux (X.data ++ '"' :: r) = some (X.data, r) :=
    fun r => parseStrAux_safe_closed X.data hX r
  have hYc : ∀ r : List Char, parseStrAux (Y.data ++ '"' :: r) = some (Y.data, r) :=
    fun r => parseStrAux_safe_closed Y.data hY r
  rw [inner_decomp, show b + 5 = (b + 4) + 1 from rfl, parseVal_lbrace]
  rw [skipWs_quote, show b + 4 = (b + 3) + 1 from rfl, parseObjMems_quote]
  rw [show b + 3 = (b + 2) + 1 from rfl, parseObjRest_member (b + 2)
    "primaryMessage".data (by decide)]
  rw [skipWs_quote, show b + 2 = (b + 1) + 1 from rfl, parseVal_quote, hXc]
  try dsimp only
  rw [skipWs_comma]
  try dsimp only
  rw [if_pos rfl, skipWs_quote, parseObjRest_member (b + 1)
    "customerHint".data (by decide)]
  rw [skipWs_quote, parseVal_quote, hYc]
  try dsimp only
  rw [skipWs_rbrace]
  try dsimp only
  rw [if_neg (by decide), if_pos rfl]

theorem shaped_decomp (X Y : String) (hX : jsonSafe X) (hY : jsonSafe Y) :
    (shapedBody X Y).data =
      '[' :: lbrace :: '"' :: ("message".data ++ '"' :: ':' :: ' ' :: '"' ::
        (escapeChars (innerMessage X Y).data ++ '"' :: rbrace :: ']' :: [])) := by
  have hinner : escapeChars (innerMessage X Y).data =
      escapeChars ("\x7b\"primaryMessage\":\"" : String).data ++ (X.data ++
        (escapeChars ("\",\"customerHint\":\"" : String).data ++ (Y.data ++
          escapeChars ("\"\x7d" : String).data))) := by
    show escapeChars (("\x7b\"primaryMessage\":\"" ++ X ++ "\",\"customerHint\":\"" ++
      Y ++ "\"\x7d") : String).data = _
    rw [String.data_append, String.data_append, String.data_append, String.data_append]
    rw [escapeChars_append, escapeChars_append, escapeChars_append, escapeChars_append]
    rw [escapeChars_safe X.data hX, escapeChars_safe Y.data hY]
    simp [List.append_assoc]
  show (("[\x7b\"message\": \"\x7b\\\"primaryMessage\\\":\\\"" ++ X ++
    "\\\",\\\"customerHint\\\":\\\"" ++ Y ++ "\\\"\x7d\"\x7d]") : String).data = _
  rw [String.data_append, String.data_append, String.data_append, String.data_append]
  rw [hinner]
  rw [show ("[\x7b\"message\": \"\x7b\\\"primaryMessage\\\":\\\"" : String).data =
    '[' :: lbrace :: '"' :: ("message".data ++ '"' :: ':' :: ' ' :: '"' ::
      escapeChars ("\x7b\"primaryMessage\":\"" : String).data) from by decide]
  rw [show ("\\\",\\\"customerHint\\\":\\\"" : String).data =
    escapeChars ("\",\"customerHint\":\"" : String).data from by decide]
  rw [show ("\\\"\x7d\"\x7d]" : String).data =
    escapeChars ("\"\x7d" : String).data ++ '"' :: rbrace :: ']' :: [] from by decide]
  simp [List.append_assoc]

/-- Parsing the spec's shaped error body
`[{"message": "{\"primaryMessage\":\"X\",\"customerHint\":\"Y\"}"}]`. -/
theorem parse_shaped (X Y : String) (hX : jsonSafe X) (hY : jsonSafe Y) (b : Nat) :
    parseVal (b + 7) (shapedBody X Y).data =
      some (JVal.arr [JVal.obj [("message", JVal.str (innerMessage X Y))]], []) := by
  rw [shaped_decomp X Y hX hY, show b + 7 = (b + 6) + 1 from rfl, parseVal_lbracket]
  rw [skipWs_lbrace, show b + 6 = (b + 5) + 1 from rfl, parseArrElems_lbrace]
  rw [show b + 5 = (b + 4) + 1 from rfl, parseArrRest_step]
  rw [show b + 4 = (b + 3) + 1 from rfl, parseVal_lbrace]
  rw [skipWs_quote, show b + 3 = (b + 2) + 1 from rfl, parseObjMems_quote]
  rw [show b + 2 = (b + 1) + 1 from rfl, parseObjRest_member (b + 1)
    "message".data (by decide)]
  rw [skipWs_space, skipWs_quote, parseVal_quote, parseStrAux_escaped_closed]
  try dsimp only
  rw [skipWs_rbrace]
  try dsimp only
  rw [if_neg (by decide), if_pos rfl]
  try dsimp only
  rw [skipWs_rbracket]
  rfl

theorem parseJson_shaped (X Y : String) (hX : jsonSafe X) (hY : jsonSafe Y) :
    parseJson (shapedBody X Y) =
      some (JVal.arr [JVal.obj [("message", JVal.str (innerMessage X Y))]]) := by
  unfold parseJson
  obtain ⟨b, hb⟩ : ∃ b, 3 * (shapedBody X Y).data.length + 5 = b + 7 := by
    refine ⟨3 * (shapedBody X Y).data.length - 2, ?_⟩
    have h1 : 1 ≤ (shapedBody X Y).data.length := by
      rw [shaped_decomp X Y hX hY]
      simp
    omega
  rw [hb, parse_shaped X Y hX hY b]
  rfl

theorem parseJson_inner (X Y : String) (hX : jsonSafe X) (hY : jsonSafe Y) :
    parseJson (innerMessage X Y) =
      some (JVal.obj [("primaryMessage", JVal.str X), ("customerHint", JVal.str Y)]) := by
  unfold parseJson
  rw [parse_inner X Y hX hY (3 * (innerMessage X Y).data.length)]
  rfl

theorem innerMessage_not_empty (X Y : String) :
    (innerMessage X Y).isEmpty = false := by
  rw [← Bool.not_eq_true, String.isEmpty_iff]
  intro h
  have h2 := congrArg String.data h
  rw [inner_decomp] at h2
  exact absurd h2 (by simp)

/-- The composed error-body round trip: the shaped body's best-effort
message extraction surfaces the nested JSON string verbatim. -/
theorem computeMessage_shaped (X Y : String) (hX : jsonSafe X) (hY : jsonSafe Y) :
    computeMessage (shapedBody X Y) = innerMessage X Y := by
  unfold computeMessage
  rw [parseJson_shaped X Y hX hY]
  try dsimp only
  rw [show objLookup [("message", JVal.str (innerMessage X Y))] "message" =
    some (JVal.str (innerMessage X Y)) from by
      rw [objLookup.eq_def]
      try dsimp only
      rw [objLookup.eq_def]
      try dsimp only
      rw [if_pos rfl]]
  rw [Option.getD_some]
  try dsimp only
  rw [innerMessage_not_empty]
  try dsimp only
  rw [parseJson_inner X Y hX hY]
  try dsimp only
  rw [show truthy (JVal.obj [("primaryMessage", JVal.str X),
    ("customerHint", JVal.str Y)]) = true from rfl]
  simp

theorem strContains_inner_left (X Y : String) :
    strContains (innerMessage X Y) X := by
  refine ⟨(lbrace :: '"' :: "primaryMessage".data ++ ['"', ':', '"']),
    ('"' :: ',' :: '"' :: ("customerHint".data ++ '"' :: ':' :: '"' ::
      (Y.data ++ '"' :: rbrace :: []))), ?_⟩
  rw [inner_decomp]
  simp [List.append_assoc]

theorem strContains_inner_right (X Y : String) :
    strContains (innerMessage X Y) Y := by
  refine ⟨(lbrace :: '"' :: "primaryMessage".data ++ ['"', ':', '"']) ++
    (X.data ++ '"' :: ',' :: '"' :: ("customerHint".data ++ ['"', ':', '"'])),
    ('"' :: rbrace :: []), ?_⟩
  rw [inner_decomp]
  simp [List.append_assoc]

/- ------------------------------------------------------------------ -/
/- Helper lemmas about the pagination loop.                            -/
/- ------------------------------------------------------------------ -/

theorem fetchLoop_stop (pages : List HttpResponse) (total : Int) (rows : List JVal)
    (h : ¬ (rows.length : Int) < total) :
    fetchLoop pages total rows = LoopRes.done (rows, 0) := by
  rw [fetchLoop.eq_def]
  simp [h]

theorem fetchLoop_done_concat (pages : List HttpResponse) :
    ∀ (total : Int) (rows r : List JVal) (k : Nat),
      fetchLoop pages total rows = LoopRes.done (r, k) →
      r = rows ++ chunksTaken pages k ∧ total ≤ (r.length : Int) := by
  induction pages with
  | nil =>
    intro total rows r k h
    rw [fetchLoop.eq_def] at h
    by_cases hlt : (rows.length : Int) < total
    · simp [hlt] at h
    · simp [hlt] at h
      obtain ⟨hr, hk⟩ := h
      subst hr hk
      simp [chunksTaken]
      omega
  | cons p rest ih =>
    intro total rows r k h
    rw [fetchLoop.eq_def] at h
    by_cases hlt : (rows.length : Int) < total
    · simp only [hlt, if_pos] at h
      rcases hh : handleErrorResponse p with f | u
      · rw [hh] at h; exact absurd h (by simp)
      · rw [hh] at h
        rcases hb : p.body with _ | chunk
        · rw [hb] at h; exact absurd h (by simp)
        · rw [hb] at h
          rcases hrr : (match objGet chunk "returnedRows" with
            | none => some ((getRowsList chunk).length : Int)
            | some v => pyIntOpt (some v)) with _ | rr
          · simp only [hrr] at h; exact absurd h (by simp)
          · simp only [hrr] at h
            by_cases hz : rr = 0
            · simp [hz] at h
            · simp only [hz, if_neg, ite_false] at h
              rcases hrec : fetchLoop rest total (rows ++ getRowsList chunk) with a | f | _
              · rcases a with ⟨r2, n⟩
                rw [hrec] at h
                simp only [LoopRes.done.injEq, Prod.mk.injEq] at h
                obtain ⟨hr2, hk⟩ := h
                subst hr2
                obtain ⟨hcat, hlen⟩ := ih total (rows ++ getRowsList chunk) r2 n hrec
                constructor
                · rw [hcat]
                  subst hk
                  simp [chunksTaken, hb, List.append_assoc]
                · omega
              · rw [hrec] at h; exact absurd h (by simp)
              · rw [hrec] at h; exact absurd h (by simp)
    · simp only [hlt, if_neg, ite_false, LoopRes.done.injEq, Prod.mk.injEq] at h
      obtain ⟨hr, hk⟩ := h
      subst hr
      constructor
      · subst hk; simp [chunksTaken]
      · omega

theorem fetchLoop_done_pos_entry (pages : List HttpResponse) (total : Int)
    (rows r : List JVal) (k : Nat)
    (h : fetchLoop pages total rows = LoopRes.done (r, k)) (hk : 1 ≤ k) :
    (rows.length : Int) < total := by
  by_contra hlt
  rw [fetchLoop_stop pages total rows hlt] at h
  simp only [LoopRes.done.injEq, Prod.mk.injEq] at h
  omega

theorem fetchLoop_noOvershoot_exact (pages : List HttpResponse) :
    ∀ (total : Int) (rows r : List JVal) (k : Nat),
      fetchLoop pages total rows = LoopRes.done (r, k) →
      NoOvershoot pages total (rows.length : Int) →
      (rows.length : Int) ≤ total →
      (r.length : Int) = total := by
  induction pages with
  | nil =>
    intro total rows r k h _ hle
    rw [fetchLoop.eq_def] at h
    by_cases hlt : (rows.length : Int) < total
    · simp [hlt] at h
    · simp [hlt] at h
      obtain ⟨hr, _⟩ := h
      subst hr
      omega
  | cons p rest ih =>
    intro total rows r k h hno hle
    rw [fetchLoop.eq_def] at h
    by_cases hlt : (rows.length : Int) < total
    · simp only [hlt, if_pos] at h
      rcases hh : handleErrorResponse p with f | u
      · rw [hh] at h; exact absurd h (by simp)
      · rw [hh] at h
        rcases hb : p.body with _ | chunk
        · rw [hb] at h; exact absurd h (by simp)
        · rw [hb] at h
          rcases hrr : (match objGet chunk "returnedRows" with
            | none => some ((getRowsList chunk).length : Int)
            | some v => pyIntOpt (some v)) with _ | rr
          · simp only [hrr] at h; exact absurd h (by simp)
          · simp only [hrr] at h
            by_cases hz : rr = 0
            · simp [hz] at h
            · simp only [hz, if_neg, ite_false] at h
              rcases hrec : fetchLoop rest total (rows ++ getRowsList chunk) with a | f | _
              · rcases a with ⟨r2, n⟩
                rw [hrec] at h
                simp only [LoopRes.done.injEq, Prod.mk.injEq] at h
                obtain ⟨hr2, _⟩ := h
                subst hr2
                unfold NoOvershoot at hno
                rw [if_pos hlt, hb] at hno
                obtain ⟨hbound, hno2⟩ := hno
                have := ih total (rows ++ getRowsList chunk) r2 n hrec
                  (by rw [List.length_append]; push_cast; exact hno2)
                  (by rw [List.length_append]; push_cast; omega)
                exact this
              · rw [hrec] at h; exact absurd h (by simp)
              · rw [hrec] at h; exact absurd h (by simp)
    · simp only [hlt, if_neg, ite_false, LoopRes.done.injEq, Prod.mk.injEq] at h
      obtain ⟨hr, _⟩ := h
      subst hr
      omega

/-- Inversion of a normal `run_query` return: the metadata is the one
captured at submission and the data/page-count pair is produced by the
pagination loop started from the inline rows with the final reported
total. -/
theorem run_query_ok_inv (submit : HttpResponse) (polls pages : List HttpResponse)
    (payload : JVal) (res : QueryResult) (t : Int) (np k : Nat)
    (hb : submit.body = some payload)
    (h : run_query submit polls pages = Outcome.ok res t np k) :
    res.metadata = submitMetadata payload ∧
    fetchLoop pages t (getRowsList payload) = LoopRes.done (res.data, k) := by
  unfold run_query at h
  rcases hh : handleErrorResponse submit with f | u
  · rw [hh] at h; exact absurd h (by simp)
  · rw [hh, hb] at h
    by_cases hq : truthyOpt (submitQueryId payload)
    · simp only [hq, not_true_eq_false, ite_false, if_neg] at h
      rcases hrc : pyIntOpt (objGet (submitStatusObj payload) "rowCount") with _ | total0
      · rw [hrc] at h; exact absurd h (by simp)
      · rw [hrc] at h
        dsimp only at h
        rcases hpoll : pollLoop polls (submitCompletion payload) total0 with a | f | _
        · rcases a with ⟨t2, np2⟩
          rw [hpoll] at h
          dsimp only at h
          rcases hfetch : fetchLoop pages t2 (getRowsList payload) with a2 | f | _
          · rcases a2 with ⟨finalRows, k2⟩
            rw [hfetch] at h
            simp only [Outcome.ok.injEq] at h
            obtain ⟨hres, ht, _, hk⟩ := h
            subst hres ht hk
            exact ⟨rfl, hfetch⟩
          · rw [hfetch] at h; exact absurd h (by simp)
          · rw [hfetch] at h; exact absurd h (by simp)
        · rw [hpoll] at h; exact absurd h (by simp)
        · rw [hpoll] at h; exact absurd h (by simp)
    · simp [hq] at h

/- ------------------------------------------------------------------ -/
/- Claim theorems.                                                     -/
/- ------------------------------------------------------------------ -/

/-- Claim C1 (counterexample): a run that returns normally after one
pagination call can return more rows than the reported row count — the
submission reports `rowCount = 1` with no inline rows, the single rows
response delivers two rows, and `run_query` returns normally with 2 rows
while the total reported at completion is 1.  The loop guard is
`len(rows) < total_row_count`, so an overshooting page is absorbed
silently. -/
theorem C1_counterexample :
    run_query overshootSubmit [] [overshootPage] =
      Outcome.ok (QueryResult.mk [JVal.null, JVal.null] (JVal.arr [])) 1 0 1 ∧
    ¬ ((([JVal.null, JVal.null] : List JVal).length : Int) = 1) := by
  exact ⟨rfl, by decide⟩

/-- Claim C1 (amended): for every `run_query` invocation that returns
normally after one or more pagination calls, the returned rows are exactly
the concatenation, in request order, of the inline submission rows
followed by each consumed page's rows (no reordering, no deduplication),
the number of returned rows is at least the row count reported at or after
completion, and it equals that row count whenever no page returns more
rows than are still outstanding. -/
theorem C1_pagination (submit : HttpResponse) (polls pages : List HttpResponse)
    (payload : JVal) (res : QueryResult) (t : Int) (np k : Nat)
    (hb : submit.body = some payload)
    (hrun : run_query submit polls pages = Outcome.ok res t np k)
    (hk : 1 ≤ k) :
    res.data = getRowsList payload ++ chunksTaken pages k ∧
    t ≤ (res.data.length : Int) ∧
    (NoOvershoot pages t ((getRowsList payload).length : Int) →
      (res.data.length : Int) = t) := by
  obtain ⟨_, hfetch⟩ := run_query_ok_inv submit polls pages payload res t np k hb hrun
  obtain ⟨hcat, hge⟩ := fetchLoop_done_concat pages t (getRowsList payload) res.data k hfetch
  have hlt := fetchLoop_done_pos_entry pages t (getRowsList payload) res.data k hfetch hk
  exact ⟨hcat, hge, fun hno =>
    le_antisymm (by
      have := fetchLoop_noOvershoot_exact pages t (getRowsList payload) res.data k hfetch hno
        (le_of_lt hlt)
      omega) hge⟩

/-- Claim C1 (witness): the conforming two-row run — one inline row, one
page of one row — returns exactly the concatenation and exactly the
reported total of 2 rows. -/
theorem C1_witness :
    run_query twoRowSubmit [] [twoRowPage] =
      Outcome.ok (QueryResult.mk [JVal.num 10, JVal.num 20] (JVal.arr [])) 2 0 1 ∧
    (([JVal.num 10, JVal.num 20] : List JVal).length : Int) = 2 := by
  refine ⟨rfl, ?_⟩
  have h := C1_pagination twoRowSubmit [] [twoRowPage]
    (JVal.obj [("status", JVal.obj [("queryId", JVal.str "q2"),
      ("completionStatus", JVal.str "Finished"), ("rowCount", JVal.num 2)]),
      ("data", JVal.arr [JVal.num 10])])
    (QueryResult.mk [JVal.num 10, JVal.num 20] (JVal.arr [])) 2 0 1 rfl rfl (by decide)
  exact h.2.2 (by
    norm_num [NoOvershoot, twoRowPage, getRowsList, objGet, objLookup]
    decide)

/-- Claim C4: a pagination response reporting `returnedRows == 0` while
the accumulated rows are strictly fewer than the total fails with
`EmptyPageFailure`; and the loop's end-of-data condition is exclusively
the row-count comparison — when the accumulated count is within the total
(as every conforming provider keeps it), the loop ends without consuming a
page exactly when the accumulated count equals the total, never because a
page was empty. -/
theorem C4_empty_page (total : Int) (rows : List JVal) (p : HttpResponse)
    (rest pages : List HttpResponse) (chunk : JVal) :
    ((rows.length : Int) < total → p.status < 300 → p.body = some chunk →
      objGet chunk "returnedRows" = some (JVal.num 0) →
      fetchLoop (p :: rest) total rows = LoopRes.failed Failure.emptyPage) ∧
    ((rows.length : Int) ≤ total →
      (fetchLoop pages total rows = LoopRes.done (rows, 0) ↔
        (rows.length : Int) = total)) := by
  constructor
  · intro hlt hs hb hz
    rw [fetchLoop.eq_def]
    simp only [hlt, if_pos]
    have hok : handleErrorResponse p = Except.ok () := by
      unfold handleErrorResponse
      rw [if_neg (by omega)]
    rw [hok, hb]
    simp [hz, pyIntOpt]
  · intro hle
    constructor
    · intro hdone
      by_cases hlt2 : (rows.length : Int) < total
      · rw [fetchLoop.eq_def] at hdone
        simp only [hlt2, if_pos] at hdone
        cases pages with
        | nil => exact absurd hdone (by simp)
        | cons q qrest =>
          dsimp only at hdone
          rcases hh : handleErrorResponse q with f | u
          · rw [hh] at hdone; exact absurd hdone (by simp)
          · rw [hh] at hdone
            rcases hqb : q.body with _ | chunk2
            · rw [hqb] at hdone; exact absurd hdone (by simp)
            · rw [hqb] at hdone
              rcases hrr : (match objGet chunk2 "returnedRows" with
                | none => some ((getRowsList chunk2).length : Int)
                | some v => pyIntOpt (some v)) with _ | rr
              · simp only [hrr] at hdone; exact absurd hdone (by simp)
              · simp only [hrr] at hdone
                by_cases hz2 : rr = 0
                · simp [hz2] at hdone
                · simp only [hz2, if_neg, ite_false] at hdone
                  rcases hrec : fetchLoop qrest total (rows ++ getRowsList chunk2)
                    with a | f | _
                  · rcases a with ⟨r2, n⟩
                    rw [hrec] at hdone
                    simp only [LoopRes.done.injEq, Prod.mk.injEq] at hdone
                    omega
                  · rw [hrec] at hdone; exact absurd hdone (by simp)
                  · rw [hrec] at hdone; exact absurd hdone (by simp)
      · omega
    · intro heq
      exact fetchLoop_stop pages total rows (by omega)

/-- Claim C4 (witness): with one row accumulated out of two, a page
reporting `returnedRows = 0` fails with `EmptyPageFailure`, and the
loop ends pageless exactly when the accumulated count reaches the
total. -/
theorem C4_witness :
    fetchLoop [HttpResponse.mk 200 "OK" ""
        (some (JVal.obj [("returnedRows", JVal.num 0)]))] 2 [JVal.num 1] =
      LoopRes.failed Failure.emptyPage ∧
    fetchLoop [] 1 [JVal.num 1] = LoopRes.done ([JVal.num 1], 0) := by
  constructor
  · exact (C4_empty_page 2 [JVal.num 1]
      (HttpResponse.mk 200 "OK" "" (some (JVal.obj [("returnedRows", JVal.num 0)])))
      [] [] (JVal.obj [("returnedRows", JVal.num 0)])).1
      (by decide) (by decide) rfl rfl
  · exact ((C4_empty_page 1 [JVal.num 1]
      (HttpResponse.mk 200 "OK" "" (some (JVal.obj [("returnedRows", JVal.num 0)])))
      [] [] (JVal.obj [("returnedRows", JVal.num 0)])).2
      (by decide)).mpr (by decide)

/-- Claim C10: the pagination loop terminates for every sequence of page
responses whose `data` lists are all nonempty — each iteration then grows
the accumulator by at least one row, bounded by the total, so a script of
at least `total - accumulated` pages is never exhausted; and the
nonempty-`data` precondition is necessary: pages whose `data` list is
empty while `returnedRows` reports 1 make no progress, and the loop runs
forever (every finite script of them is exhausted). -/
theorem C10_termination :
    (∀ (pages : List HttpResponse) (total : Int) (rows : List JVal),
      (∀ p ∈ pages, ∃ chunk, p.body = some chunk ∧ 1 ≤ (getRowsList chunk).length) →
      total ≤ (rows.length : Int) + pages.length →
      fetchLoop pages total rows ≠ LoopRes.hung) ∧
    (∀ (n : Nat) (total : Int) (rows : List JVal), (rows.length : Int) < total →
      fetchLoop (List.replicate n stuckPage) total rows = LoopRes.hung) := by
  constructor
  · intro pages
    induction pages with
    | nil =>
      intro total rows _ hbound
      rw [fetchLoop_stop [] total rows (by simp at hbound; omega)]
      simp
    | cons p rest ih =>
      intro total rows hne hbound
      by_cases hlt : (rows.length : Int) < total
      · rw [fetchLoop.eq_def]
        simp only [hlt, if_pos]
        try dsimp only
        obtain ⟨chunk, hb, hlen⟩ := hne p (by simp)
        rcases hh : handleErrorResponse p with f | u
        · simp
        · rw [hb]
          rcases hrr : (match objGet chunk "returnedRows" with
            | none => some ((getRowsList chunk).length : Int)
            | some v => pyIntOpt (some v)) with _ | rr
          · simp [hrr]
          · simp only [hrr]
            by_cases hz : rr = 0
            · simp [hz]
            · simp only [hz, if_neg, ite_false]
              rcases hrec : fetchLoop rest total (rows ++ getRowsList chunk)
                with a | f | _
              · rcases a with ⟨r2, n⟩; simp
              · simp
              · exact absurd hrec (ih total (rows ++ getRowsList chunk)
                  (fun q hq => hne q (by simp [hq]))
                  (by
                    rw [List.length_append]
                    simp only [List.length_cons] at hbound
                    push_cast
                    push_cast at hbound
                    omega))
      · rw [fetchLoop_stop (p :: rest) total rows hlt]
        simp
  · intro n
    induction n with
    | zero =>
      intro total rows hlt
      rw [List.replicate_zero, fetchLoop.eq_def]
      simp [hlt]
    | succ m ih =>
      intro total rows hlt
      rw [List.replicate_succ, fetchLoop.eq_def]
      simp only [hlt, if_pos]
      try dsimp only
      rw [show handleErrorResponse stuckPage = Except.ok () from rfl]
      rw [show stuckPage.body = some (JVal.obj [("returnedRows", JVal.num 1)]) from rfl]
      try dsimp only
      rw [show getRowsList (JVal.obj [("returnedRows", JVal.num 1)]) = [] from rfl]
      rw [show objGet (JVal.obj [("returnedRows", JVal.num 1)]) "returnedRows" =
        some (JVal.num 1) from rfl]
      try dsimp only
      rw [show pyIntOpt (some (JVal.num 1)) = some 1 from rfl]
      try dsimp only
      rw [if_neg (by omega), List.append_nil, ih total rows hlt]

/-- Claim C10 (witness): a single one-row page finishes a one-row total
from an empty accumulator, while two zero-progress pages (empty `data`,
`returnedRows = 1`) leave the loop still hungry. -/
theorem C10_witness :
    fetchLoop [twoRowPage] 1 [] ≠ LoopRes.hung ∧
    fetchLoop [stuckPage, stuckPage] 1 [] = LoopRes.hung := by
  constructor
  · exact C10_termination.1 [twoRowPage] 1 []
      (by
        intro p hp
        simp only [List.mem_singleton] at hp
        subst hp
        exact ⟨JVal.obj [("data", JVal.arr [JVal.num 20]), ("returnedRows", JVal.num 1)],
          rfl, by decide⟩)
      (by simp)
  · have h := C10_termination.2 2 1 [] (by decide)
    simpa [List.replicate] using h

/-- Claim C5: a submission response that already reports a terminal
completion status (`Finished` or `ResultsProduced`) and whose inline row
count equals the reported total makes `run_query` return without entering
the polling state or the pagination state: zero poll calls and zero rows
calls, for every script of further responses. -/
theorem C5_skip_loops (submit : HttpResponse) (polls pages : List HttpResponse)
    (payload : JVal)
    (hs : submit.status < 300) (hb : submit.body = some payload)
    (hq : truthyOpt (submitQueryId payload) = true)
    (hc : isTerminal (submitCompletion payload) = true)
    (hrc : objGet (submitStatusObj payload) "rowCount" =
      some (JVal.num ((getRowsList payload).length : Int))) :
    run_query submit polls pages =
      Outcome.ok (QueryResult.mk (getRowsList payload) (submitMetadata payload))
        ((getRowsList payload).length : Int) 0 0 := by
  have hpoll : pollLoop polls (submitCompletion payload)
      ((getRowsList payload).length : Int) =
      LoopRes.done (((getRowsList payload).length : Int), 0) := by
    rw [pollLoop.eq_def]
    simp [hc]
  have hfetch : fetchLoop pages ((getRowsList payload).length : Int)
      (getRowsList payload) = LoopRes.done (getRowsList payload, 0) :=
    fetchLoop_stop pages _ (getRowsList payload) (by omega)
  unfold run_query
  rw [show handleErrorResponse submit = Except.ok () from by
    unfold handleErrorResponse; rw [if_neg (by omega)]]
  rw [hb]
  try dsimp only
  rw [if_neg (by simp [hq]), hrc]
  dsimp only [pyIntOpt]
  rw [hpoll]
  try dsimp only
  rw [hfetch]

/-- Claim C5 (witness): a submission reporting `ResultsProduced` with
both of its 2 rows inline returns them with zero poll calls and zero rows
calls even though further scripted responses are available. -/
theorem C5_witness :
    run_query inlineSubmit [stuckPage] [stuckPage] =
      Outcome.ok (QueryResult.mk [JVal.num 1, JVal.num 2] (JVal.arr [JVal.str "col"]))
        2 0 0 := by
  exact C5_skip_loops inlineSubmit [stuckPage] [stuckPage]
    (JVal.obj [
      ("status", JVal.obj [("queryId", JVal.str "q3"),
        ("completionStatus", JVal.str "ResultsProduced"), ("rowCount", JVal.num 2)]),
      ("data", JVal.arr [JVal.num 1, JVal.num 2]),
      ("metadata", JVal.arr [JVal.str "col"])])
    (by decide) rfl rfl rfl rfl

/-- Claim C6 (counterexample): a submission response with HTTP status 500
whose body lacks a query id fails with the `QueryFailure` raised by the
error handler — which runs before the query-id check — not with
`ProtocolFailure`; so the claim's "regardless of the response's HTTP
status" does not hold. -/
theorem C6_counterexample :
    run_query (HttpResponse.mk 500 "Server Error" "oops" (some (JVal.obj []))) [] [] =
      Outcome.fail (Failure.queryFailure 500 "Server Error" "oops") ∧
    (Failure.queryFailure 500 "Server Error" "oops").isProtocolFailure = false :=
  ⟨rfl, rfl⟩

/-- Claim C6 (amended): every submission response that passes the error
handler (status < 300) and whose JSON body lacks a query id — both at
`status.queryId` and top-level `queryId` — makes `run_query` fail with
`ProtocolFailure` (`MissingQueryId`). -/
theorem C6_missing_query_id (submit : HttpResponse) (polls pages : List HttpResponse)
    (payload : JVal)
    (hs : submit.status < 300) (hb : submit.body = some payload)
    (h1 : objGet (submitStatusObj payload) "queryId" = none)
    (h2 : objGet payload "queryId" = none) :
    run_query submit polls pages = Outcome.fail Failure.missingQueryId ∧
    Failure.missingQueryId.isProtocolFailure = true := by
  refine ⟨?_, rfl⟩
  unfold run_query
  rw [show handleErrorResponse submit = Except.ok () from by
    unfold handleErrorResponse; rw [if_neg (by omega)]]
  rw [hb]
  try dsimp only
  rw [if_pos]
  rw [show submitQueryId payload = none from by
    unfold submitQueryId pyOr
    rw [h1, h2]
    simp [truthyOpt]]
  simp [truthyOpt]

/-- Claim C6 (witness): a 200 submission response with an empty JSON
object body fails with `MissingQueryId`. -/
theorem C6_witness :
    run_query (HttpResponse.mk 200 "OK" "" (some (JVal.obj []))) [] [] =
      Outcome.fail Failure.missingQueryId ∧
    Failure.missingQueryId.isProtocolFailure = true :=
  C6_missing_query_id (HttpResponse.mk 200 "OK" "" (some (JVal.obj []))) [] []
    (JVal.obj []) (by decide) rfl rfl rfl

/-- Claim C7 (counterexample): a submission response with HTTP status 502
whose body omits the row count field fails with the error handler's
`QueryFailure`, not with `ProtocolFailure`; the claim's universal
quantification over responses fails on non-2xx ones. -/
theorem C7_counterexample :
    run_query (HttpResponse.mk 502 "Bad Gateway" "down"
        (some (JVal.obj [("status", JVal.obj [("queryId", JVal.str "q")])]))) [] [] =
      Outcome.fail (Failure.queryFailure 502 "Bad Gateway" "down") ∧
    (Failure.queryFailure 502 "Bad Gateway" "down").isProtocolFailure = false :=
  ⟨rfl, rfl⟩

/-- Claim C7 (amended): every submission or poll response that passes the
error handler (status < 300) and whose body omits the row count field
makes `run_query` fail with a `ProtocolFailure` — `missingRowCount` (or
`missingQueryId` when the query id is also absent) at submission, and
`missingRowCount` at every poll step. -/
theorem C7_missing_row_count :
    (∀ (submit : HttpResponse) (polls pages : List HttpResponse) (payload : JVal),
      submit.status < 300 → submit.body = some payload →
      objGet (submitStatusObj payload) "rowCount" = none →
      ∃ f, run_query submit polls pages = Outcome.fail f ∧
        f.isProtocolFailure = true) ∧
    (∀ (p : HttpResponse) (rest : List HttpResponse) (completion : Option JVal)
      (total : Int) (payload : JVal),
      isTerminal completion = false → p.status < 300 → p.body = some payload →
      objGet payload "rowCount" = none →
      pollLoop (p :: rest) completion total = LoopRes.failed Failure.missingRowCount ∧
      Failure.missingRowCount.isProtocolFailure = true) := by
  constructor
  · intro submit polls pages payload hs hb hrc
    by_cases hq : truthyOpt (submitQueryId payload) = true
    · refine ⟨Failure.missingRowCount, ?_, rfl⟩
      unfold run_query
      rw [show handleErrorResponse submit = Except.ok () from by
        unfold handleErrorResponse; rw [if_neg (by omega)]]
      rw [hb]
      try dsimp only
      rw [if_neg (by simp [hq]), hrc]
      dsimp only [pyIntOpt]
    · refine ⟨Failure.missingQueryId, ?_, rfl⟩
      unfold run_query
      rw [show handleErrorResponse submit = Except.ok () from by
        unfold handleErrorResponse; rw [if_neg (by omega)]]
      rw [hb]
      try dsimp only
      rw [if_pos (by simp [hq])]
  · intro p rest completion total payload hterm hs hb hrc
    refine ⟨?_, rfl⟩
    rw [pollLoop.eq_def]
    simp only [hterm, Bool.false_eq_true, if_neg, ite_false]
    try dsimp only
    rw [show handleErrorResponse p = Except.ok () from by
      unfold handleErrorResponse; rw [if_neg (by omega)]]
    rw [hb]
    try dsimp only
    rw [hrc]
    dsimp only [pyIntOpt]

/-- Claim C7 (witness): a 200 submission whose body carries a query id but
no row count fails with a `ProtocolFailure`, and so does a poll step whose
200 response omits the row count. -/
theorem C7_witness :
    (∃ f, run_query (HttpResponse.mk 200 "OK" ""
        (some (JVal.obj [("queryId", JVal.str "q")]))) [] [] =
      Outcome.fail f ∧ f.isProtocolFailure = true) ∧
    pollLoop [HttpResponse.mk 200 "OK" ""
        (some (JVal.obj [("completionStatus", JVal.str "Finished")]))]
      (some (JVal.str "Running")) 0 = LoopRes.failed Failure.missingRowCount := by
  constructor
  · exact C7_missing_row_count.1
      (HttpResponse.mk 200 "OK" "" (some (JVal.obj [("queryId", JVal.str "q")])))
      [] [] (JVal.obj [("queryId", JVal.str "q")]) (by decide) rfl rfl
  · exact (C7_missing_row_count.2
      (HttpResponse.mk 200 "OK" ""
        (some (JVal.obj [("completionStatus", JVal.str "Finished")])))
      [] (some (JVal.str "Running")) 0
      (JVal.obj [("completionStatus", JVal.str "Finished")])
      rfl (by decide) rfl rfl).1

/-- Claim C8 (code behavior at the failing input): a completed submission
reporting `rowCount = 0` makes `run_query` return the empty row list as
`data` — `return {"data": rows, "metadata": metadata}` never substitutes
the `"(empty)"` marker that the function's own docstring (and its
`Union[List, str]` return annotation) promise for the no-rows case. -/
theorem C8_zero_rows_behavior :
    run_query zeroRowSubmit [] [] =
      Outcome.ok (QueryResult.mk [] (JVal.arr [])) 0 0 0 := rfl

/-- Claim C2: while a credential exists (token and expiry stored) and the
current time has not passed the expiry, `ensure_access` returns the stored
token with the state unchanged and performs zero authorization flows, and
`get_instance_url` likewise returns the stored base URL unchanged; once
the current time has passed the expiry instant, the stale credential is
discarded, exactly one authorization flow runs, and the stored credential
becomes the flow's token and instance URL with expiry 110 minutes after
the clock reading taken when the flow completes. -/
theorem C2_credential_lifecycle (st : OAuthState) (now flowTime : Int)
    (flow : AuthInfo) (t : String) (e : Int)
    (ht : st.token = some t) (he : st.exp = some e) :
    (¬ now > e →
      ensure_access st now flowTime flow = (st, t, 0) ∧
      get_instance_url st now flowTime flow = (st, st.instance_url, 0)) ∧
    (now > e →
      ensure_access st now flowTime flow =
        (OAuthState.mk (some flow.access_token) (some (flowTime + tokenLeadTime))
          (some flow.instance_url), flow.access_token, 1)) := by
  constructor
  · intro h
    have h1 : ensure_access st now flowTime flow = (st, t, 0) := by
      unfold ensure_access
      rw [he]
      try dsimp only
      rw [if_neg h]
      rw [ht]
    exact ⟨h1, by unfold get_instance_url; rw [h1]⟩
  · intro h
    unfold ensure_access
    rw [he]
    try dsimp only
    rw [if_pos h]

/-- Claim C2 (witness): with a credential expiring at time 100, a call at
time 50 returns it unchanged with zero flows, and a call at time 150
replaces it through exactly one flow, expiring 110 minutes after the
post-flow clock reading 160. -/
theorem C2_witness :
    ensure_access (OAuthState.mk (some "tok") (some 100) (some "url")) 50 50
      (AuthInfo.mk "new" "u2") =
      (OAuthState.mk (some "tok") (some 100) (some "url"), "tok", 0) ∧
    get_instance_url (OAuthState.mk (some "tok") (some 100) (some "url")) 50 50
      (AuthInfo.mk "new" "u2") =
      (OAuthState.mk (some "tok") (some 100) (some "url"), some "url", 0) ∧
    ensure_access (OAuthState.mk (some "tok") (some 100) (some "url")) 150 160
      (AuthInfo.mk "new" "u2") =
      (OAuthState.mk (some "new") (some (160 + tokenLeadTime)) (some "u2"), "new", 1) := by
  refine ⟨?_, ?_, ?_⟩
  · exact ((C2_credential_lifecycle (OAuthState.mk (some "tok") (some 100) (some "url"))
      50 50 (AuthInfo.mk "new" "u2") "tok" 100 rfl rfl).1 (by decide)).1
  · exact ((C2_credential_lifecycle (OAuthState.mk (some "tok") (some 100) (some "url"))
      50 50 (AuthInfo.mk "new" "u2") "tok" 100 rfl rfl).1 (by decide)).2
  · exact (C2_credential_lifecycle (OAuthState.mk (some "tok") (some 100) (some "url"))
      150 160 (AuthInfo.mk "new" "u2") "tok" 100 rfl rfl).2 (by decide)

/-- Claim C9: when the captured redirect parameters lack `code`, the code
exchange fails with an `AuthFailure` whose message contains any
provider-supplied `error` value, and also the `error_description` value
when both are supplied; when `code` is present, the exchange issues
exactly the token request `grant_type=authorization_code` with the code,
client id, client secret, redirect URI and the original PKCE verifier —
and the verifier field differs from the challenge whenever verifier and
challenge differ. -/
theorem C9_code_exchange (cfg : FlowConfig) (args : List (String × String))
    (verifier challenge : String) :
    (qsLookup args "code" = none →
      oauthCodeExchange cfg args verifier = Except.error (authFailureMessage args) ∧
      (∀ e, qsLookup args "error" = some e →
        strContains (authFailureMessage args) e) ∧
      (∀ e d, qsLookup args "error" = some e →
        qsLookup args "error_description" = some d →
        strContains (authFailureMessage args) d)) ∧
    (∀ c, qsLookup args "code" = some c →
      oauthCodeExchange cfg args verifier =
        Except.ok (TokenRequest.mk "authorization_code" c cfg.client_id
          cfg.client_secret cfg.redirect_uri verifier) ∧
      (verifier ≠ challenge →
        (TokenRequest.mk "authorization_code" c cfg.client_id
          cfg.client_secret cfg.redirect_uri verifier).code_verifier ≠ challenge)) := by
  constructor
  · intro hcode
    refine ⟨by unfold oauthCodeExchange; rw [hcode], ?_, ?_⟩
    · intro e he
      unfold authFailureMessage
      rw [he]
      rcases hd : qsLookup args "error_description" with _ | d
      · exact ⟨("OAuth authentication failed - no authorization code received"
          ++ ". Error: ").data, [], by simp⟩
      · exact ⟨("OAuth authentication failed - no authorization code received"
          ++ ". Error: ").data, (" - " ++ d).data, by simp⟩
    · intro e d he hd
      unfold authFailureMessage
      rw [he, hd]
      exact ⟨("OAuth authentication failed - no authorization code received"
        ++ ". Error: " ++ e ++ " - ").data, [], by simp⟩
  · intro c hcode
    exact ⟨by unfold oauthCodeExchange; rw [hcode], fun hne => hne⟩

/-- Claim C9 (witness): a redirect carrying `error=access_denied` and
`error_description=denied by user` but no code yields an `AuthFailure`
message containing both values; a redirect carrying `code=abc` yields the
token request with the verifier `v`, not the challenge `ch`. -/
theorem C9_witness :
    oauthCodeExchange (FlowConfig.mk "id" "secret" "http://localhost:55556/Callback")
      [("error", "access_denied"), ("error_description", "denied by user")] "v" =
      Except.error (authFailureMessage
        [("error", "access_denied"), ("error_description", "denied by user")]) ∧
    strContains (authFailureMessage
      [("error", "access_denied"), ("error_description", "denied by user")])
      "access_denied" ∧
    strContains (authFailureMessage
      [("error", "access_denied"), ("error_description", "denied by user")])
      "denied by user" ∧
    oauthCodeExchange (FlowConfig.mk "id" "secret" "http://localhost:55556/Callback")
      [("code", "abc")] "v" =
      Except.ok (TokenRequest.mk "authorization_code" "abc" "id" "secret"
        "http://localhost:55556/Callback" "v") ∧
    (TokenRequest.mk "authorization_code" "abc" "id" "secret"
      "http://localhost:55556/Callback" "v").code_verifier ≠ "ch" := by
  have h1 := (C9_code_exchange
    (FlowConfig.mk "id" "secret" "http://localhost:55556/Callback")
    [("error", "access_denied"), ("error_description", "denied by user")]
    "v" "ch").1 rfl
  have h2 := (C9_code_exchange
    (FlowConfig.mk "id" "secret" "http://localhost:55556/Callback")
    [("code", "abc")] "v" "ch").2 "abc" rfl
  exact ⟨h1.1, h1.2.1 "access_denied" rfl, h1.2.2 "access_denied" "denied by user" rfl rfl,
    h2.1, h2.2 (by decide)⟩

/-- Claim C3 (counterexample): HTTP status 199 is not 2xx, yet the error
handler raises nothing — its guard is `status_code >= 300`, so sub-200
statuses pass silently and no `QueryFailure` carries them. -/
theorem C3_counterexample :
    handleErrorResponse (HttpResponse.mk 199 "Odd" "body" none) = Except.ok () ∧
    ¬ (200 ≤ 199 ∧ 199 < 300) := ⟨rfl, by decide⟩

/-- Claim C3 (amended): for every HTTP response with status ≥ 300 received
at the submit, poll, or rows stage, `run_query` raises a `QueryFailure`
carrying the response's status code, reason, and a best-effort message;
for a body shaped `[{"message": "{\"primaryMessage\":\"X\",\"customerHint\":\"Y\"}"}]`
(with `X`, `Y` free of characters needing JSON escapes) the failure's
message is the nested JSON string, which contains both `X` and `Y`; for a
body that is not valid JSON the message is the raw body text verbatim.
The message extraction is a total function, so the error-body parsing step
itself never raises. -/
theorem C3_error_handling :
    (∀ r : HttpResponse, 300 ≤ r.status →
      handleErrorResponse r =
        Except.error (Failure.queryFailure r.status r.reason (computeMessage r.text))) ∧
    (∀ (submit : HttpResponse) (polls pages : List HttpResponse),
      300 ≤ submit.status →
      run_query submit polls pages =
        Outcome.fail (Failure.queryFailure submit.status submit.reason
          (computeMessage submit.text))) ∧
    (∀ (p : HttpResponse) (rest : List HttpResponse) (completion : Option JVal)
      (total : Int),
      isTerminal completion = false → 300 ≤ p.status →
      pollLoop (p :: rest) completion total =
        LoopRes.failed (Failure.queryFailure p.status p.reason (computeMessage p.text))) ∧
    (∀ (p : HttpResponse) (rest : List HttpResponse) (total : Int) (rows : List JVal),
      (rows.length : Int) < total → 300 ≤ p.status →
      fetchLoop (p :: rest) total rows =
        LoopRes.failed (Failure.queryFailure p.status p.reason (computeMessage p.text))) ∧
    (∀ X Y : String, jsonSafe X → jsonSafe Y →
      computeMessage (shapedBody X Y) = innerMessage X Y ∧
      strContains (computeMessage (shapedBody X Y)) X ∧
      strContains (computeMessage (shapedBody X Y)) Y) ∧
    (∀ t : String, parseJson t = none → computeMessage t = t) := by
  refine ⟨?_, ?_, ?_, ?_, ?_, ?_⟩
  · intro r h
    unfold handleErrorResponse
    rw [if_pos h]
  · intro submit polls pages h
    unfold run_query handleErrorResponse
    rw [if_pos h]
  · intro p rest completion total hterm h
    rw [pollLoop.eq_def]
    simp only [hterm, Bool.false_eq_true, if_neg, ite_false]
    try dsimp only
    rw [show handleErrorResponse p =
      Except.error (Failure.queryFailure p.status p.reason (computeMessage p.text))
      from by unfold handleErrorResponse; rw [if_pos h]]
  · intro p rest total rows hlt h
    rw [fetchLoop.eq_def]
    simp only [hlt, if_pos]
    try dsimp only
    rw [show handleErrorResponse p =
      Except.error (Failure.queryFailure p.status p.reason (computeMessage p.text))
      from by unfold handleErrorResponse; rw [if_pos h]]
  · intro X Y hX hY
    refine ⟨computeMessage_shaped X Y hX hY, ?_, ?_⟩
    · rw [computeMessage_shaped X Y hX hY]
      exact strContains_inner_left X Y
    · rw [computeMessage_shaped X Y hX hY]
      exact strContains_inner_right X Y
  · intro t h
    unfold computeMessage
    rw [h]

/-- Claim C3 (witness): a 500 response with the non-JSON body `notjson`
raises the `QueryFailure` carrying status, reason and the raw text; the
shaped body for `X = "Aa"`, `Y = "Bb"` surfaces the nested message, which
contains `"Aa"`. -/
theorem C3_witness :
    handleErrorResponse (HttpResponse.mk 500 "Server Error" "notjson" none) =
      Except.error (Failure.queryFailure 500 "Server Error"
        (computeMessage "notjson")) ∧
    computeMessage (shapedBody "Aa" "Bb") = innerMessage "Aa" "Bb" ∧
    strContains (computeMessage (shapedBody "Aa" "Bb")) "Aa" ∧
    computeMessage "notjson" = "notjson" := by
  refine ⟨C3_error_handling.1 (HttpResponse.mk 500 "Server Error" "notjson" none)
      (by decide),
    (C3_error_handling.2.2.2.2.1 "Aa" "Bb" (by unfold jsonSafe; decide) (by unfold jsonSafe; decide)).1,
    (C3_error_handling.2.2.2.2.1 "Aa" "Bb" (by unfold jsonSafe; decide) (by unfold jsonSafe; decide)).2.1,
    C3_error_handling.2.2.2.2.2 "notjson" (by rfl)⟩

end DataCloud
